import Mathlib

/-
Verification of the shared authentication/authorization library
(Masharah-Advisory/common).

The Go sources are shallowly embedded: gin request contexts become explicit
records of the header values and context entries the code reads, the JWT
library call is embedded per its documented behaviour over an abstract token
record, remote HTTP interactions become explicit outcome values passed in as
parameters, and every fallible operation returns Except.
-/

namespace Common

/-! ## JWT token model (pkg/middleware/auth_middleware.go) -/

/-- Signing algorithm of a decoded JWT.  The source accepts only the HMAC
family (auth_middleware.go line 82). -/
inductive SigningMethod where
| hmac
| rsa
| ecdsa
deriving DecidableEq, Repr

/-- A decoded JWT as the jwt/v5 library sees it after base64/JSON decoding:
the custom user_id claim, the optional exp registered claim (unix seconds),
the algorithm of the header, and the secret the signature was produced with
(signature verification succeeds exactly when this equals the verification
key). -/
structure TokenData where
  userID : Nat
  expiresAt : Option Int
  method : SigningMethod
  signedWith : String
deriving DecidableEq, Repr

/-- The claims extracted on success (Claims struct, auth_middleware.go
lines 27-30). -/
structure JWTClaims where
  userID : Nat
deriving DecidableEq, Repr

/-- Failure modes of parseJWTToken.  malformedToken covers a token string
that does not decode at all; libTokenExpired is ErrTokenExpired raised by
the jwt/v5 default claims validation inside ParseWithClaims; tokenExpired is
the manual expiry check of auth_middleware.go line 102. -/
inductive JWTError where
| malformedToken
| unexpectedSigningMethod
| signatureInvalid
| libTokenExpired
| tokenExpired
deriving DecidableEq, Repr

/-- Whether the error signals an expired token (either the library check or
the manual check in the source). -/
def JWTError.isExpiredKind : JWTError → Bool
| .libTokenExpired => true
| .tokenExpired => true
| _ => false

/-- Does the optional expiry lie strictly before now (time.Time.Before)? -/
def expiryPast (expiresAt : Option Int) (now : Int) : Bool :=
  match expiresAt with
  | some e => decide (e < now)
  | none => false

/-- parseJWTToken (auth_middleware.go lines 79-107) on an already decoded
token.  ParseWithClaims first runs the keyfunc (rejecting a non-HMAC
method), verifies the signature, and applies the default jwt/v5 claims
validation (which rejects an exp strictly before now); the source then
re-checks expiry manually at line 102. -/
def parseJWTToken (tok : TokenData) (jwtSecret : String) (now : Int) :
    Except JWTError JWTClaims :=
  if tok.method ≠ SigningMethod.hmac then .error .unexpectedSigningMethod
  else if tok.signedWith ≠ jwtSecret then .error .signatureInvalid
  else if expiryPast tok.expiresAt now then .error .libTokenExpired
  else if expiryPast tok.expiresAt now then .error .tokenExpired
  else .ok ⟨tok.userID⟩

/-- jwt.ParseWithClaims on the raw token string: wire decoding is abstracted
as a function from strings to decoded tokens, a string that does not decode
fails as malformed. -/
def validateBearer (decode : String → Option TokenData) (now : Int)
    (tokenString jwtSecret : String) : Except JWTError JWTClaims :=
  match decode tokenString with
  | none => .error .malformedToken
  | some tok => parseJWTToken tok jwtSecret now

/-! ## SmartAuthMiddleware (middleware/smart_auth_middleware.go) -/

/-- The header values SmartAuthMiddleware reads.  gin GetHeader returns the
empty string when a header is absent, so an absent header is modelled as
the empty string. -/
structure AuthRequest where
  serviceSecretHdr : String
  authorizationHdr : String
deriving DecidableEq, Repr

/-- Process-wide configuration read from the utils package: the shared
service secret and the global JWT secret.  utils.LoadEnv aborts the process
when SERVICE_SECRET is empty, so a running process always has a non-empty
serviceSecret. -/
structure AuthConfig where
  serviceSecret : String
  jwtSecretGlobal : String
deriving DecidableEq, Repr

/-- Result of SmartAuthMiddleware on one request: pass through tagged as a
service, pass through tagged as a user with the extracted user id, or abort
with a 401/500 response identified by its message key. -/
inductive AuthOutcome where
| serviceAccepted
| userAccepted (userID : Nat)
| unauthorizedRsp (key : String)
| internalErrorRsp (key : String)
deriving DecidableEq, Repr

/-- Does the first character list start with the second? -/
def listHasPre : List Char → List Char → Bool
| [], _ => true
| _ :: _, [] => false
| p :: ps, c :: cs => if p = c then listHasPre ps cs else false

/-- strings.TrimPrefix: remove one leading occurrence of pre, if present.
Implemented on character lists so that it evaluates by reduction. -/
def goTrimLeading (pre s : String) : String :=
  if listHasPre pre.toList s.toList then
    String.mk (s.toList.drop pre.toList.length)
  else s

/-- The JWT secret actually used: the variadic argument overrides the
global one when present and non-empty (smart_auth_middleware.go lines
46-49). -/
def effectiveJWTSecret (cfg : AuthConfig) (jwtSecretArg : Option String) :
    String :=
  match jwtSecretArg with
  | some s => if s ≠ "" then s else cfg.jwtSecretGlobal
  | none => cfg.jwtSecretGlobal

/-- The part of SmartAuthMiddleware reached when the service-secret header
is empty (smart_auth_middleware.go lines 32-75): the Authorization-header
branch, falling through to the missing-authentication rejection. -/
def smartAuthUserBranch (cfg : AuthConfig) (jwtSecretArg : Option String)
    (decode : String → Option TokenData) (now : Int)
    (authorizationHdr : String) : AuthOutcome :=
  if authorizationHdr ≠ "" then
    if goTrimLeading "Bearer " authorizationHdr = authorizationHdr then
      .unauthorizedRsp "invalid_authorization_format"
    else if effectiveJWTSecret cfg jwtSecretArg = "" then
      .internalErrorRsp "jwt_secret_not_configured"
    else
      match validateBearer decode now (goTrimLeading "Bearer " authorizationHdr)
          (effectiveJWTSecret cfg jwtSecretArg) with
      | .error _ => .unauthorizedRsp "invalid_or_expired_token"
      | .ok claims => .userAccepted claims.userID
  else .unauthorizedRsp "missing_authentication"

/-- SmartAuthMiddleware (smart_auth_middleware.go lines 14-77).  The
variadic jwtSecret argument is an optional override; token decoding and the
current time are parameters of the embedding. -/
def smartAuthMiddleware (cfg : AuthConfig) (jwtSecretArg : Option String)
    (decode : String → Option TokenData) (now : Int) (req : AuthRequest) :
    AuthOutcome :=
  if req.serviceSecretHdr ≠ "" then
    if req.serviceSecretHdr = cfg.serviceSecret then .serviceAccepted
    else .unauthorizedRsp "invalid_service_credentials"
  else smartAuthUserBranch cfg jwtSecretArg decode now req.authorizationHdr

/-- The Authorization-header branch can only produce a user acceptance or
one of its own rejection keys: never a Service classification and never the
invalid-service-credentials rejection. -/
lemma smartAuthUserBranch_never_service (cfg : AuthConfig)
    (arg : Option String) (decode : String → Option TokenData) (now : Int)
    (ah : String) :
    smartAuthUserBranch cfg arg decode now ah ≠ AuthOutcome.serviceAccepted ∧
    smartAuthUserBranch cfg arg decode now ah ≠
      AuthOutcome.unauthorizedRsp "invalid_service_credentials" := by
  unfold smartAuthUserBranch
  constructor <;>
  · split
    · split
      · simp
      · split
        · simp
        · split <;> simp
    · simp

/-! ## Claims about SmartAuthMiddleware and the token validator -/

/-- Claim C1: a request whose service-secret header equals the configured
(non-empty, as LoadEnv enforces at startup) service secret is classified as
Service and never as User, for every Authorization header, every token
decoder and every time — the service-secret branch is terminal and the
Authorization branch is never examined. -/
theorem smartAuth_service_priority (cfg : AuthConfig) (arg : Option String)
    (decode : String → Option TokenData) (now : Int) (req : AuthRequest)
    (hhdr : req.serviceSecretHdr = cfg.serviceSecret)
    (hne : cfg.serviceSecret ≠ "") :
    smartAuthMiddleware cfg arg decode now req = AuthOutcome.serviceAccepted ∧
    ∀ uid, smartAuthMiddleware cfg arg decode now req ≠
      AuthOutcome.userAccepted uid := by
  unfold smartAuthMiddleware
  rw [hhdr]
  simp [hne]

/-- Witness for C1: a request carrying the configured secret "s3cr3t" and a
valid bearer token (the decoder accepts it and it verifies under the
configured JWT secret) is still classified as Service. -/
theorem smartAuth_service_priority_witness :
    smartAuthMiddleware ⟨"s3cr3t", "k"⟩ none
      (fun _ => some ⟨7, none, SigningMethod.hmac, "k"⟩) 0
      ⟨"s3cr3t", "Bearer tok"⟩ = AuthOutcome.serviceAccepted ∧
    ∀ uid, smartAuthMiddleware ⟨"s3cr3t", "k"⟩ none
      (fun _ => some ⟨7, none, SigningMethod.hmac, "k"⟩) 0
      ⟨"s3cr3t", "Bearer tok"⟩ ≠ AuthOutcome.userAccepted uid :=
  smartAuth_service_priority ⟨"s3cr3t", "k"⟩ none
    (fun _ => some ⟨7, none, SigningMethod.hmac, "k"⟩) 0
    ⟨"s3cr3t", "Bearer tok"⟩ rfl (by decide)

/-- Claim C10: when the service-secret header is absent or empty, the
request is never classified as Service and never rejected for invalid
service credentials — even when the configured service secret is itself
empty — and with no Authorization header either, it is rejected for missing
authentication. -/
theorem smartAuth_empty_secret_header (cfg : AuthConfig) (arg : Option String)
    (decode : String → Option TokenData) (now : Int) (req : AuthRequest)
    (h : req.serviceSecretHdr = "") :
    smartAuthMiddleware cfg arg decode now req ≠ AuthOutcome.serviceAccepted ∧
    smartAuthMiddleware cfg arg decode now req ≠
      AuthOutcome.unauthorizedRsp "invalid_service_credentials" ∧
    (req.authorizationHdr = "" →
      smartAuthMiddleware cfg arg decode now req =
        AuthOutcome.unauthorizedRsp "missing_authentication") := by
  have hb : smartAuthMiddleware cfg arg decode now req =
      smartAuthUserBranch cfg arg decode now req.authorizationHdr := by
    unfold smartAuthMiddleware
    rw [h]
    simp
  rw [hb]
  refine ⟨(smartAuthUserBranch_never_service cfg arg decode now
      req.authorizationHdr).1,
    (smartAuthUserBranch_never_service cfg arg decode now
      req.authorizationHdr).2, ?_⟩
  intro hA
  unfold smartAuthUserBranch
  simp [hA]

/-- Witness for C10: with the configured service secret itself empty and an
empty service-secret header, the request goes to the missing-authentication
rejection, not the service branch. -/
theorem smartAuth_empty_secret_header_witness :
    smartAuthMiddleware ⟨"", ""⟩ none (fun _ => none) 0 ⟨"", ""⟩ ≠
      AuthOutcome.serviceAccepted ∧
    smartAuthMiddleware ⟨"", ""⟩ none (fun _ => none) 0 ⟨"", ""⟩ ≠
      AuthOutcome.unauthorizedRsp "invalid_service_credentials" ∧
    ("" = "" →
      smartAuthMiddleware ⟨"", ""⟩ none (fun _ => none) 0 ⟨"", ""⟩ =
        AuthOutcome.unauthorizedRsp "missing_authentication") :=
  smartAuth_empty_secret_header ⟨"", ""⟩ none (fun _ => none) 0 ⟨"", ""⟩ rfl

/-- Claim C4: a token whose expiry claim is present and strictly before the
current time is rejected with a token-expired error even when its signature
verifies under the configured secret; a token with no expiry claim is never
rejected on grounds of expiry. -/
theorem parseJWTToken_expiry_spec :
    (∀ (tok : TokenData) (secret : String) (now e : Int),
      tok.expiresAt = some e → e < now →
      tok.method = SigningMethod.hmac → tok.signedWith = secret →
      ∃ err, parseJWTToken tok secret now = .error err ∧
        err.isExpiredKind = true) ∧
    (∀ (tok : TokenData) (secret : String) (now : Int),
      tok.expiresAt = none →
      ∀ err, parseJWTToken tok secret now = .error err →
        err.isExpiredKind = false) := by
  constructor
  · intro tok secret now e hexp hlt hm hs
    refine ⟨JWTError.libTokenExpired, ?_, rfl⟩
    unfold parseJWTToken
    have hpast : expiryPast tok.expiresAt now = true := by
      rw [hexp]; simpa [expiryPast] using hlt
    simp [hm, hs, hpast]
  · intro tok secret now hexp err herr
    unfold parseJWTToken at herr
    have hpast : expiryPast tok.expiresAt now = false := by
      rw [hexp]; rfl
    by_cases hm : tok.method = SigningMethod.hmac
    · by_cases hs : tok.signedWith = secret
      · simp [hm, hs, hpast] at herr
      · simp [hm, hs, hpast] at herr
        cases herr
        rfl
    · simp [hm] at herr
      cases herr
      rfl

/-- Witness for C4: a correctly signed HMAC token that expired at time 10 is
rejected at time 11 with an expired-kind error, and a correctly signed token
without expiry is never rejected on grounds of expiry. -/
theorem parseJWTToken_expiry_spec_witness :
    (∃ err, parseJWTToken ⟨5, some 10, SigningMethod.hmac, "k"⟩ "k" 11 =
      .error err ∧ err.isExpiredKind = true) ∧
    (∀ err, parseJWTToken ⟨5, none, SigningMethod.hmac, "k"⟩ "k" 11 =
      .error err → err.isExpiredKind = false) :=
  ⟨parseJWTToken_expiry_spec.1 ⟨5, some 10, SigningMethod.hmac, "k"⟩ "k" 11 10
      rfl (by decide) rfl rfl,
    parseJWTToken_expiry_spec.2 ⟨5, none, SigningMethod.hmac, "k"⟩ "k" 11 rfl⟩

/-! ## Permission middlewares
(pkg/middleware/authorization_middleware.go and the unnamed authType-aware
variant with PermissionMiddleware / PermissionAnyMiddleware) -/

/-- A value stored under the user_id context key.  The Go code switches on
its dynamic type: uint, int, string, or anything else. -/
inductive CtxValue where
| vUInt (n : Nat)
| vInt (i : Int)
| vStr (s : String)
| vOther
deriving DecidableEq, Repr

/-- Result of one permission middleware on one request: call the next
handler, or abort with the written response.  panicked models a Go runtime
panic inside the handler. -/
inductive MWOutcome where
| nextCalled
| unauthorizedRsp (key : String)
| forbiddenRsp (msg : String)
| internalErrorRsp (key : String)
| tooManyRequestsRsp
| panicked
deriving DecidableEq, Repr

/-- strconv.ParseUint(s, 10, 32): decimal digits only, value below 2^32. -/
def parseUint32 (s : String) : Option Nat :=
  match s.toNat? with
  | some n => if n < 2 ^ 32 then some n else none
  | none => none

/-- The user-id extraction and type switch shared by all the permission
middlewares (authorization_middleware.go lines 29-55 and the twins in the
other variants).  Go uint(v) on a negative int wraps modulo 2^64. -/
def resolveUserID : Option CtxValue → Except MWOutcome Nat
| none => .error (.unauthorizedRsp "user_id_not_found")
| some (.vUInt n) => .ok n
| some (.vInt i) => .ok (Int.toNat (i % (2 ^ 64 : Int)))
| some (.vStr s) =>
  match parseUint32 s with
  | some n => .ok n
  | none => .error (.unauthorizedRsp "invalid_user_id_format")
| some .vOther => .error (.unauthorizedRsp "invalid_user_id_type")

/-- Outcome of the remote interaction behind one permission check: the HTTP
POST fails (transport error), the response body fails to decode as JSON, or
a decoded envelope with its success flag, allowed flag and message. -/
inductive RemoteResult where
| postFailure
| decodeFailure
| envelope (success allowed : Bool) (message : String)
deriving DecidableEq, Repr

/-- Errors a permission check can return to the middleware. -/
inductive CheckErr where
| transportErr
| decodeErr
| notInitializedErr
| serviceErr (msg : String)
deriving DecidableEq, Repr

deriving instance DecidableEq for Except

/-- checkUserPermission, direct-HTTP variant (authorization_middleware.go
lines 129-156): PostJSON failure and JSON-decoding failure are errors; a
decoded envelope with success = false yields (false, nil); otherwise the
allowed flag is returned. -/
def checkUserPermission (remote : RemoteResult) : Except CheckErr Bool :=
  match remote with
  | .postFailure => .error .transportErr
  | .decodeFailure => .error .decodeErr
  | .envelope success allowed _ =>
    if success = false then .ok false else .ok allowed

/-- checkUserPermission, service-client variant (unnamed part with the
global serviceClient): nil client is an error; serviceClient.Post failure
is an error; DecodeStandardResponse turns a JSON-decoding failure into an
error and an envelope with success = false into the error
"service error: message"; only a successful envelope yields the allowed
flag. -/
def checkUserPermissionViaClient (initialized : Bool)
    (remote : RemoteResult) : Except CheckErr Bool :=
  if initialized = false then .error .notInitializedErr
  else
    match remote with
    | .postFailure => .error .transportErr
    | .decodeFailure => .error .decodeErr
    | .envelope success allowed message =>
      if success = false then .error (.serviceErr message) else .ok allowed

/-- The permission loop of RequirePermissions / PermissionAnyMiddleware
(authorization_middleware.go lines 108-122): check each permission in
order; the first error aborts with InternalError, the first denial aborts
with Forbidden naming that permission; if all are granted the next handler
runs.  The second component records which permissions were sent to the
remote check, in order. -/
def checkLoop (check : String → Except CheckErr Bool) :
    List String → MWOutcome × List String
| [] => (.nextCalled, [])
| p :: rest =>
  match check p with
  | .error _ => (.internalErrorRsp "failed_to_validate_permissions", [p])
  | .ok false => (.forbiddenRsp ("insufficient_permissions: " ++ p), [p])
  | .ok true =>
    let r := checkLoop check rest
    (r.1, p :: r.2)

/-- RequirePermissions (authorization_middleware.go lines 77-126), with the
per-permission remote check abstracted as a function of the resolved user
id and the permission. -/
def requirePermissions (check : Nat → String → Except CheckErr Bool)
    (userID : Option CtxValue) (perms : List String) :
    MWOutcome × List String :=
  match resolveUserID userID with
  | .error out => (out, [])
  | .ok uid => checkLoop (check uid) perms

/-- RequirePermission (authorization_middleware.go lines 26-74).  After the
check, line 59 runs fmt.Println(err.Error()) unconditionally: when err is
nil (the check returned without error) this dereferences a nil interface
and panics, so the err and allowed tests below it are never reached in that
case. -/
def requirePermission (check : Nat → String → Except CheckErr Bool)
    (userID : Option CtxValue) (perm : String) : MWOutcome × List String :=
  match resolveUserID userID with
  | .error out => (out, [])
  | .ok uid =>
    match check uid perm with
    | .error _ => (.internalErrorRsp "failed_to_validate_permissions", [perm])
    | .ok _ => (.panicked, [perm])

/-- PermissionMiddleware (unnamed authType-aware variant, single
permission): absent authType rejects, authType service passes through with
no check, authType user resolves the user id and checks the one permission,
any other authType rejects. -/
def permissionMiddleware (check : Nat → String → Except CheckErr Bool)
    (authType : Option String) (userID : Option CtxValue) (perm : String) :
    MWOutcome × List String :=
  match authType with
  | none => (.unauthorizedRsp "authentication_required", [])
  | some t =>
    if t = "service" then (.nextCalled, [])
    else if t = "user" then
      match resolveUserID userID with
      | .error out => (out, [])
      | .ok uid =>
        match check uid perm with
        | .error _ =>
          (.internalErrorRsp "failed_to_validate_permissions", [perm])
        | .ok false =>
          (.forbiddenRsp ("insufficient_permissions: " ++ perm), [perm])
        | .ok true => (.nextCalled, [perm])
    else (.unauthorizedRsp "invalid_authentication_type", [])

/-- PermissionAnyMiddleware (unnamed authType-aware variant, multiple
permissions; despite the name it requires all of them). -/
def permissionAnyMiddleware (check : Nat → String → Except CheckErr Bool)
    (authType : Option String) (userID : Option CtxValue)
    (perms : List String) : MWOutcome × List String :=
  match authType with
  | none => (.unauthorizedRsp "authentication_required", [])
  | some t =>
    if t = "service" then (.nextCalled, [])
    else if t = "user" then
      match resolveUserID userID with
      | .error out => (out, [])
      | .ok uid => checkLoop (check uid) perms
    else (.unauthorizedRsp "invalid_authentication_type", [])

/-! ### Lemmas on the permission loop -/

/-- The permissions sent to the remote check always form a prefix of the
required list, in order. -/
lemma checkLoop_trace_pre (check : String → Except CheckErr Bool) :
    ∀ ps : List String,
      (checkLoop check ps).2 = ps.take (checkLoop check ps).2.length := by
  intro ps
  induction ps with
  | nil => rfl
  | cons p rest ih =>
    unfold checkLoop
    cases h : check p with
    | error e => simp
    | ok b =>
      cases b with
      | false => simp
      | true =>
        show p :: (checkLoop check rest).2 = _
        simp only [List.length_cons, List.take_succ_cons]
        exact congrArg _ ih

/-- The next handler runs exactly when every required permission is
granted without error. -/
lemma checkLoop_next_iff (check : String → Except CheckErr Bool)
    (ps : List String) :
    (checkLoop check ps).1 = MWOutcome.nextCalled ↔
      ∀ p ∈ ps, check p = .ok true := by
  induction ps with
  | nil => simp [checkLoop]
  | cons p rest ih =>
    unfold checkLoop
    cases h : check p with
    | error e => simp [h]
    | ok b =>
      cases b with
      | false => simp [h]
      | true => simpa [h] using ih

/-- Unfolding equation of the loop on a non-empty list. -/
lemma checkLoop_cons (check : String → Except CheckErr Bool) (p : String)
    (rest : List String) :
    checkLoop check (p :: rest) =
      match check p with
      | .error _ => (.internalErrorRsp "failed_to_validate_permissions", [p])
      | .ok false => (.forbiddenRsp ("insufficient_permissions: " ++ p), [p])
      | .ok true =>
        ((checkLoop check rest).1, p :: (checkLoop check rest).2) := rfl

/-- On a granted head permission the loop recurses on the tail, recording
the head as checked. -/
lemma checkLoop_cons_true (check : String → Except CheckErr Bool)
    (p : String) (rest : List String) (hp : check p = .ok true) :
    checkLoop check (p :: rest) =
      ((checkLoop check rest).1, p :: (checkLoop check rest).2) := by
  rw [checkLoop_cons, hp]

/-- While every checked permission is granted, the loop walks the list
left to right: if the first i permissions are granted, the loop behaves as
the loop on the remaining permissions, with the first i recorded as
checked. -/
lemma checkLoop_skip (check : String → Except CheckErr Bool) :
    ∀ (i : Nat) (ps : List String),
      (∀ p ∈ ps.take i, check p = .ok true) →
      checkLoop check ps =
        ((checkLoop check (ps.drop i)).1,
          ps.take i ++ (checkLoop check (ps.drop i)).2) := by
  intro i
  induction i with
  | zero => intro ps _; simp
  | succ n ihn =>
    intro ps hps
    cases ps with
    | nil => simp
    | cons p rest =>
      have hp : check p = .ok true := hps p (by simp)
      have hrest : ∀ q ∈ rest.take n, check q = .ok true := by
        intro q hq
        exact hps q (by simp [hq])
      rw [checkLoop_cons_true check p rest hp, ihn rest hrest]
      simp [List.take_succ_cons, List.drop_succ_cons]

/-! ### Claims about the permission middlewares -/

/-- Claim C3: on a user request with a recognized user id, the
multi-permission middleware checks the permissions in list order, the
checked permissions always form a prefix of the list, it admits exactly
when every permission is granted, it stops at the first denial or error
(checking nothing afterwards), a first denial at position i produces
Forbidden naming exactly that permission, a first error produces
InternalError — and the authType-aware PermissionAnyMiddleware behaves
identically on authType user. -/
theorem requirePermissions_order_spec
    (check : Nat → String → Except CheckErr Bool) (ctxv : Option CtxValue)
    (uid : Nat) (perms : List String)
    (hres : resolveUserID ctxv = .ok uid) :
    ((requirePermissions check ctxv perms).2 =
      perms.take (requirePermissions check ctxv perms).2.length) ∧
    ((requirePermissions check ctxv perms).1 = MWOutcome.nextCalled ↔
      ∀ p ∈ perms, check uid p = .ok true) ∧
    (∀ i (hi : i < perms.length),
      (∀ p ∈ perms.take i, check uid p = .ok true) →
      check uid perms[i] = .ok false →
      requirePermissions check ctxv perms =
        (MWOutcome.forbiddenRsp ("insufficient_permissions: " ++ perms[i]),
          perms.take (i + 1))) ∧
    (∀ i (hi : i < perms.length),
      (∀ p ∈ perms.take i, check uid p = .ok true) →
      (∃ e, check uid perms[i] = .error e) →
      requirePermissions check ctxv perms =
        (MWOutcome.internalErrorRsp "failed_to_validate_permissions",
          perms.take (i + 1))) ∧
    permissionAnyMiddleware check (some "user") ctxv perms =
      requirePermissions check ctxv perms := by
  have hrp : requirePermissions check ctxv perms =
      checkLoop (check uid) perms := by
    unfold requirePermissions
    rw [hres]
  refine ⟨?_, ?_, ?_, ?_, ?_⟩
  · rw [hrp]
    exact checkLoop_trace_pre (check uid) perms
  · rw [hrp]
    exact checkLoop_next_iff (check uid) perms
  · intro i hi hok hden
    rw [hrp, checkLoop_skip (check uid) i perms hok,
      List.drop_eq_getElem_cons hi]
    unfold checkLoop
    rw [hden]
    simp [List.take_concat_get' perms i hi]
  · intro i hi hok herr
    obtain ⟨e, he⟩ := herr
    rw [hrp, checkLoop_skip (check uid) i perms hok,
      List.drop_eq_getElem_cons hi]
    unfold checkLoop
    rw [he]
    simp [List.take_concat_get' perms i hi]
  · unfold permissionAnyMiddleware
    rw [hres, hrp]
    simp

/-- Witness for C3: with permissions [p1, p2] where the remote check grants
p1 and denies p2, the middleware rejects with Forbidden naming p2 after
checking p1 then p2 — and it admits when both are granted. -/
theorem requirePermissions_order_spec_witness :
    requirePermissions
        (fun _ p => if p = "p2" then Except.ok false else Except.ok true)
        (some (CtxValue.vUInt 1)) ["p1", "p2"] =
      (MWOutcome.forbiddenRsp ("insufficient_permissions: " ++ "p2"),
        ["p1", "p2"]) := by
  have h := (requirePermissions_order_spec
      (fun _ p => if p = "p2" then Except.ok false else Except.ok true)
      (some (CtxValue.vUInt 1)) 1 ["p1", "p2"] rfl).2.2.1 1 (by decide)
      (by decide) (by decide)
  simpa using h

/-- Claim C5: with caller kind service, both authType-aware middlewares
admit the request and invoke no permission check, whatever the configured
permissions and remote behaviour. -/
theorem permissionMiddleware_service_bypass
    (check : Nat → String → Except CheckErr Bool) (ctxv : Option CtxValue)
    (perm : String) (perms : List String) :
    permissionMiddleware check (some "service") ctxv perm =
      (MWOutcome.nextCalled, []) ∧
    permissionAnyMiddleware check (some "service") ctxv perms =
      (MWOutcome.nextCalled, []) := by
  constructor <;> rfl

/-- Claim C9: with a recognized user id and an empty required-permission
list, the multi-permission middlewares admit the request and invoke no
remote check: the all-granted condition is vacuously true. -/
theorem requirePermissions_empty_admits
    (check : Nat → String → Except CheckErr Bool) (ctxv : Option CtxValue)
    (uid : Nat) (hres : resolveUserID ctxv = .ok uid) :
    requirePermissions check ctxv [] = (MWOutcome.nextCalled, []) ∧
    permissionAnyMiddleware check (some "user") ctxv [] =
      (MWOutcome.nextCalled, []) := by
  unfold requirePermissions permissionAnyMiddleware
  rw [hres]
  simp [checkLoop]

/-- Witness for C9: a request with user_id 42 (uint) and no required
permissions is admitted with no remote call. -/
theorem requirePermissions_empty_admits_witness :
    requirePermissions (fun _ _ => Except.error CheckErr.transportErr)
        (some (CtxValue.vUInt 42)) [] = (MWOutcome.nextCalled, []) ∧
    permissionAnyMiddleware (fun _ _ => Except.error CheckErr.transportErr)
        (some "user") (some (CtxValue.vUInt 42)) [] =
      (MWOutcome.nextCalled, []) :=
  requirePermissions_empty_admits _ (some (CtxValue.vUInt 42)) 42 rfl

/-- Counterexample for C2: in the service-client variant, a well-formed
envelope with success = false is NOT reported as denial (false, nil) — it
becomes an error, and the multi-permission middleware then responds
InternalError, not Forbidden. -/
theorem checkUserPermissionViaClient_denial_counterexample :
    checkUserPermissionViaClient true (RemoteResult.envelope false false "no")
      = .error (CheckErr.serviceErr "no") ∧
    checkUserPermissionViaClient true (RemoteResult.envelope false false "no")
      ≠ Except.ok false ∧
    requirePermissions
        (fun _ _ => checkUserPermissionViaClient true
          (RemoteResult.envelope false false "no"))
        (some (CtxValue.vUInt 1)) ["orders:write"] =
      (MWOutcome.internalErrorRsp "failed_to_validate_permissions",
        ["orders:write"]) := by
  refine ⟨rfl, by decide, ?_⟩
  rfl

/-- Claim C2 (amended): in the direct-HTTP variant, an envelope with
success = false is reported as denial (false, nil) and the middleware
responds Forbidden naming the permission, while transport and decoding
failures are errors and produce InternalError; in the service-client
variant, transport and decoding failures likewise produce InternalError,
but an envelope with success = false is surfaced as an error by
DecodeStandardResponse, so the middleware responds InternalError there
too. -/
theorem permissionCheck_envelope_spec :
    (∀ a m, checkUserPermission (RemoteResult.envelope false a m) =
      Except.ok false) ∧
    (checkUserPermission RemoteResult.postFailure =
      .error CheckErr.transportErr) ∧
    (checkUserPermission RemoteResult.decodeFailure =
      .error CheckErr.decodeErr) ∧
    (∀ ctxv uid p a m, resolveUserID ctxv = .ok uid →
      requirePermissions
          (fun _ _ => checkUserPermission (RemoteResult.envelope false a m))
          ctxv [p] =
        (MWOutcome.forbiddenRsp ("insufficient_permissions: " ++ p), [p])) ∧
    (∀ ctxv uid p r, resolveUserID ctxv = .ok uid →
      (r = RemoteResult.postFailure ∨ r = RemoteResult.decodeFailure) →
      requirePermissions (fun _ _ => checkUserPermission r) ctxv [p] =
        (MWOutcome.internalErrorRsp "failed_to_validate_permissions", [p])) ∧
    (∀ a m, checkUserPermissionViaClient true
        (RemoteResult.envelope false a m) =
      .error (CheckErr.serviceErr m)) ∧
    (∀ ctxv uid p a m, resolveUserID ctxv = .ok uid →
      requirePermissions
          (fun _ _ => checkUserPermissionViaClient true
            (RemoteResult.envelope false a m))
          ctxv [p] =
        (MWOutcome.internalErrorRsp "failed_to_validate_permissions",
          [p])) ∧
    (checkUserPermissionViaClient true RemoteResult.postFailure =
      .error CheckErr.transportErr) ∧
    (checkUserPermissionViaClient true RemoteResult.decodeFailure =
      .error CheckErr.decodeErr) ∧
    (∀ ctxv uid p r, resolveUserID ctxv = .ok uid →
      (r = RemoteResult.postFailure ∨ r = RemoteResult.decodeFailure) →
      requirePermissions
          (fun _ _ => checkUserPermissionViaClient true r) ctxv [p] =
        (MWOutcome.internalErrorRsp "failed_to_validate_permissions",
          [p])) := by
  refine ⟨fun a m => rfl, rfl, rfl, ?_, ?_, fun a m => rfl, ?_, rfl, rfl, ?_⟩
  · intro ctxv uid p a m hres
    unfold requirePermissions
    rw [hres]
    simp [checkLoop, checkUserPermission]
  · intro ctxv uid p r hres hr
    unfold requirePermissions
    rw [hres]
    rcases hr with h | h <;> rw [h] <;> rfl
  · intro ctxv uid p a m hres
    unfold requirePermissions
    rw [hres]
    rfl
  · intro ctxv uid p r hres hr
    unfold requirePermissions
    rw [hres]
    rcases hr with h | h <;> rw [h] <;> rfl

/-- Witness for C2 (amended): with user_id 9, permission orders:write,
the direct-HTTP variant turns a success = false envelope into Forbidden
naming orders:write and a transport failure into InternalError, and the
service-client variant turns the same envelope and the same transport
failure into InternalError. -/
theorem permissionCheck_envelope_spec_witness :
    requirePermissions
        (fun _ _ => checkUserPermission
          (RemoteResult.envelope false true "denied"))
        (some (CtxValue.vUInt 9)) ["orders:write"] =
      (MWOutcome.forbiddenRsp ("insufficient_permissions: " ++ "orders:write"),
        ["orders:write"]) ∧
    requirePermissions (fun _ _ => checkUserPermission RemoteResult.postFailure)
        (some (CtxValue.vUInt 9)) ["orders:write"] =
      (MWOutcome.internalErrorRsp "failed_to_validate_permissions",
        ["orders:write"]) ∧
    requirePermissions
        (fun _ _ => checkUserPermissionViaClient true
          (RemoteResult.envelope false true "denied"))
        (some (CtxValue.vUInt 9)) ["orders:write"] =
      (MWOutcome.internalErrorRsp "failed_to_validate_permissions",
        ["orders:write"]) ∧
    requirePermissions
        (fun _ _ => checkUserPermissionViaClient true RemoteResult.postFailure)
        (some (CtxValue.vUInt 9)) ["orders:write"] =
      (MWOutcome.internalErrorRsp "failed_to_validate_permissions",
        ["orders:write"]) :=
  ⟨permissionCheck_envelope_spec.2.2.2.1 _ 9 _ true "denied" rfl,
    permissionCheck_envelope_spec.2.2.2.2.1 _ 9 _ RemoteResult.postFailure rfl
      (Or.inl rfl),
    permissionCheck_envelope_spec.2.2.2.2.2.2.1 _ 9 _ true "denied" rfl,
    permissionCheck_envelope_spec.2.2.2.2.2.2.2.2.2 _ 9 _
      RemoteResult.postFailure rfl (Or.inl rfl)⟩

/-- Claim C6 (code bug): on a request where the remote check returns
without error, the single-permission middleware panics at the unconditional
fmt.Println(err.Error()) of line 59, while RequirePermissions on the
one-element list admits the request — the claimed n = 1 equivalence fails
on every successful check. -/
theorem requirePermission_panics_on_success :
    requirePermission (fun _ _ => Except.ok true)
        (some (CtxValue.vUInt 1)) "perm" = (MWOutcome.panicked, ["perm"]) ∧
    requirePermissions (fun _ _ => Except.ok true)
        (some (CtxValue.vUInt 1)) ["perm"] =
      (MWOutcome.nextCalled, ["perm"]) ∧
    requirePermission (fun _ _ => Except.ok true)
        (some (CtxValue.vUInt 1)) "perm" ≠
      requirePermissions (fun _ _ => Except.ok true)
        (some (CtxValue.vUInt 1)) ["perm"] := by
  refine ⟨rfl, rfl, by decide⟩

/-! ## Service Client (pkg/httpclient/client.go) -/

/-- strings.TrimSuffix: remove one trailing occurrence of suf, if
present.  Implemented on character lists so that it evaluates by
reduction. -/
def goTrimTrailing (suf s : String) : String :=
  if listHasPre suf.toList.reverse s.toList.reverse then
    String.mk ((s.toList.reverse.drop suf.toList.length).reverse)
  else s

/-- Splitting a character list at every occurrence of a separator; the
result always has at least one (possibly empty) piece, exactly like
strings.Split. -/
def splitCharList (sep : Char) : List Char → List (List Char)
| [] => [[]]
| x :: xs =>
  if x = sep then [] :: splitCharList sep xs
  else
    match splitCharList sep xs with
    | [] => [[x]]
    | y :: ys => (x :: y) :: ys

/-- strings.Split(s, "/") for a one-character separator. -/
def goSplit (sep : Char) (s : String) : List String :=
  (splitCharList sep s.toList).map String.mk

/-- The route after strings.TrimPrefix(route, "/") (client.go line 77). -/
def cleanedRoute (route : String) : String := goTrimLeading "/" route

/-- buildURL (client.go lines 75-94): split the cleaned route on "/";
fewer than three segments is a format error; the third segment is the
service name, looked up in the configured host table; an unconfigured
service is an error; otherwise the host (without trailing slash) is glued
to the route. -/
def buildURL (hosts : List (String × String)) (route : String) :
    Except String String :=
  match goSplit '/' (cleanedRoute route) with
  | _ :: _ :: svc :: _ =>
    match hosts.lookup svc with
    | none => .error ("no host configured for service: " ++ svc)
    | some host => .ok (goTrimTrailing "/" host ++ "/" ++ cleanedRoute route)
  | _ => .error ("invalid API route format: " ++ cleanedRoute route)

/-- The service-name path segment of a route: the third segment of the
cleaned route, when it exists. -/
def svcSegment (route : String) : Option String :=
  match goSplit '/' (cleanedRoute route) with
  | _ :: _ :: svc :: _ => some svc
  | _ => none

/-- An outbound HTTP request as executed by doRequest. -/
structure NetCall where
  method : String
  url : String
deriving DecidableEq, Repr

/-- Outcome of executing one outbound request on the wire. -/
inductive NetResult where
| failure
| response (status : Nat) (body : String)
deriving DecidableEq, Repr

/-- doRequest (client.go lines 135-177): executes the request (recorded in
the second component), turns a transport failure into an error, and treats
any status of at least 400 as an error carrying the body. -/
def doRequest (net : NetCall → NetResult) (method url : String) :
    Except String Nat × List NetCall :=
  match net ⟨method, url⟩ with
  | .failure => (.error "request failed", [⟨method, url⟩])
  | .response status body =>
    if status ≥ 400 then
      (.error ("service returned error [" ++ toString status ++ "]: " ++ body),
        [⟨method, url⟩])
    else (.ok status, [⟨method, url⟩])

/-- smartRequest (client.go lines 61-72): resolve the URL first and return
the routing error without touching the network; otherwise perform the
request.  The second component records every network request executed. -/
def smartRequest (hosts : List (String × String)) (net : NetCall → NetResult)
    (method route : String) : Except String Nat × List NetCall :=
  match buildURL hosts route with
  | .error e => (.error ("failed to build URL: " ++ e), [])
  | .ok url => doRequest net method url

/-- Get (client.go line 41). -/
def clientGet (hosts : List (String × String)) (net : NetCall → NetResult)
    (route : String) : Except String Nat × List NetCall :=
  smartRequest hosts net "GET" route

/-- Post (client.go line 46). -/
def clientPost (hosts : List (String × String)) (net : NetCall → NetResult)
    (route : String) : Except String Nat × List NetCall :=
  smartRequest hosts net "POST" route

/-- Put (client.go line 51). -/
def clientPut (hosts : List (String × String)) (net : NetCall → NetResult)
    (route : String) : Except String Nat × List NetCall :=
  smartRequest hosts net "PUT" route

/-- Delete (client.go line 56). -/
def clientDelete (hosts : List (String × String)) (net : NetCall → NetResult)
    (route : String) : Except String Nat × List NetCall :=
  smartRequest hosts net "DELETE" route

/-- Claim C8: when the service-name segment is missing or has no
configured host, buildURL fails and every request method returns the
routing error having executed no network request at all. -/
theorem serviceClient_routing_error (hosts : List (String × String))
    (net : NetCall → NetResult) (route : String)
    (h : svcSegment route = none ∨
      ∃ svc, svcSegment route = some svc ∧ hosts.lookup svc = none) :
    ∃ e, buildURL hosts route = Except.error e ∧
      (∀ m, smartRequest hosts net m route =
        (Except.error ("failed to build URL: " ++ e), [])) ∧
      clientGet hosts net route =
        (Except.error ("failed to build URL: " ++ e), []) ∧
      clientPost hosts net route =
        (Except.error ("failed to build URL: " ++ e), []) ∧
      clientPut hosts net route =
        (Except.error ("failed to build URL: " ++ e), []) ∧
      clientDelete hosts net route =
        (Except.error ("failed to build URL: " ++ e), []) := by
  have hberr : ∃ e, buildURL hosts route = Except.error e := by
    rcases hsp : goSplit '/' (cleanedRoute route) with _ | ⟨a, rest⟩
    · exact ⟨_, by unfold buildURL; rw [hsp]⟩
    · rcases rest with _ | ⟨b, rest2⟩
      · exact ⟨_, by unfold buildURL; rw [hsp]⟩
      · rcases rest2 with _ | ⟨svc, rest3⟩
        · exact ⟨_, by unfold buildURL; rw [hsp]⟩
        · have hsvc : svcSegment route = some svc := by
            unfold svcSegment; rw [hsp]
          rcases h with hnone | ⟨svc2, hsvc2, hlook⟩
          · rw [hsvc] at hnone; cases hnone
          · rw [hsvc] at hsvc2
            injection hsvc2 with hh
            subst hh
            exact ⟨"no host configured for service: " ++ svc, by
              unfold buildURL; rw [hsp]; simp [hlook]⟩
  obtain ⟨e, he⟩ := hberr
  have hsm : ∀ m, smartRequest hosts net m route =
      (Except.error ("failed to build URL: " ++ e), []) := by
    intro m
    unfold smartRequest
    rw [he]
  exact ⟨e, he, hsm, hsm "GET", hsm "POST", hsm "PUT", hsm "DELETE"⟩

/-- Witness for C8: with only a host for users configured, the logical
route /api/v1/orders/123 fails to route and no network request is
executed. -/
theorem serviceClient_routing_error_witness :
    ∃ e, buildURL [("users", "http://users.internal")] "/api/v1/orders/123" =
      Except.error e ∧
      (∀ m, smartRequest [("users", "http://users.internal")]
          (fun _ => NetResult.response 200 "") m "/api/v1/orders/123" =
        (Except.error ("failed to build URL: " ++ e), [])) ∧
      clientGet [("users", "http://users.internal")]
          (fun _ => NetResult.response 200 "") "/api/v1/orders/123" =
        (Except.error ("failed to build URL: " ++ e), []) ∧
      clientPost [("users", "http://users.internal")]
          (fun _ => NetResult.response 200 "") "/api/v1/orders/123" =
        (Except.error ("failed to build URL: " ++ e), []) ∧
      clientPut [("users", "http://users.internal")]
          (fun _ => NetResult.response 200 "") "/api/v1/orders/123" =
        (Except.error ("failed to build URL: " ++ e), []) ∧
      clientDelete [("users", "http://users.internal")]
          (fun _ => NetResult.response 200 "") "/api/v1/orders/123" =
        (Except.error ("failed to build URL: " ++ e), []) :=
  serviceClient_routing_error [("users", "http://users.internal")]
    (fun _ => NetResult.response 200 "") "/api/v1/orders/123"
    (Or.inr ⟨"orders", rfl, rfl⟩)

/-! ## Rate limiter (pkg/middleware/service_auth_middleware.go,
RateLimitMiddleware, backed by a token-bucket limiter) -/

/-- A token-bucket limiter: limit tokens per second refill rate, burst
capacity, current token count, and the time (in seconds) of the last
committed update.  RateLimitMiddleware builds one per client key with
rate.NewLimiter(rate.Every(time.Minute / n), n): one token earned every
60/n seconds, i.e. n/60 tokens per second, with capacity n. -/
structure RateLimiter where
  limit : ℚ
  burst : ℕ
  tokens : ℚ
  lastTime : ℚ
deriving DecidableEq, Repr

/-- Minimum of two rationals, written so that it evaluates by reduction. -/
def ratMin (a b : ℚ) : ℚ := if a ≤ b then a else b

/-- Maximum of two rationals, written so that it evaluates by reduction. -/
def ratMax (a b : ℚ) : ℚ := if a ≤ b then b else a

lemma ratMin_le_left (a b : ℚ) : ratMin a b ≤ a := by
  unfold ratMin
  split
  · exact le_refl a
  · next h => exact le_of_not_le h

/-- The token count after advancing the bucket to time t: continuous
refill at the limit rate, clamped at the burst capacity. -/
def RateLimiter.advanceTokens (l : RateLimiter) (t : ℚ) : ℚ :=
  ratMin (l.burst : ℚ) (l.tokens + ratMax 0 (t - l.lastTime) * l.limit)

/-- Allow at time t: advance, then consume one token if at least one is
available (committing the new state); otherwise deny and leave the state
unchanged. -/
def RateLimiter.allowAt (l : RateLimiter) (t : ℚ) : Bool × RateLimiter :=
  if 1 ≤ l.advanceTokens t then
    (true, { l with tokens := l.advanceTokens t - 1, lastTime := t })
  else (false, l)

/-- The limiter created for a previously unseen client key at time t:
refill rate n/60 tokens per second, capacity n, initially full. -/
def newLimiter (requestsPerMinute : ℕ) (t : ℚ) : RateLimiter :=
  { limit := Rat.divInt requestsPerMinute 60
    burst := requestsPerMinute
    tokens := (requestsPerMinute : ℚ)
    lastTime := t }

/-- Replace (or insert) the bucket stored for one client key. -/
def updateEntry (st : List (String × RateLimiter)) (ip : String)
    (l : RateLimiter) : List (String × RateLimiter) :=
  (ip, l) :: st.filter (fun kv => !(kv.1 == ip))

/-- The bucket used for a request: the stored one, or a fresh full bucket
for a previously unseen client key (service_auth_middleware.go lines
145-151). -/
def bucketFor (requestsPerMinute : ℕ) (st : List (String × RateLimiter))
    (ip : String) (t : ℚ) : RateLimiter :=
  match st.lookup ip with
  | some l => l
  | none => newLimiter requestsPerMinute t

/-- One request through RateLimitMiddleware (service_auth_middleware.go
lines 141-163): look up the client key, lazily creating a full bucket, ask
the bucket for admission at the current time, and answer 429 when it
denies. -/
def rateLimitStep (requestsPerMinute : ℕ)
    (st : List (String × RateLimiter)) (ip : String) (t : ℚ) :
    MWOutcome × List (String × RateLimiter) :=
  (if ((bucketFor requestsPerMinute st ip t).allowAt t).1 then .nextCalled
    else .tooManyRequestsRsp,
   updateEntry st ip ((bucketFor requestsPerMinute st ip t).allowAt t).2)

/-- A sequence of requests (client key, arrival time) through
RateLimitMiddleware, returning the outcomes in order. -/
def rateLimitRun (requestsPerMinute : ℕ) :
    List (String × RateLimiter) → List (String × ℚ) → List MWOutcome
| _, [] => []
| st, (ip, t) :: rest =>
  (rateLimitStep requestsPerMinute st ip t).1 ::
    rateLimitRun requestsPerMinute
      (rateLimitStep requestsPerMinute st ip t).2 rest

/-- A sequence of admission checks against one bucket, returning the
decisions in order together with the final bucket state. -/
def allowSeq (l : RateLimiter) : List ℚ → List Bool × RateLimiter
| [] => ([], l)
| t :: ts =>
  ((l.allowAt t).1 :: (allowSeq (l.allowAt t).2 ts).1,
    (allowSeq (l.allowAt t).2 ts).2)

/-- A run on a concatenated schedule is the first run followed by a run
from the resulting bucket state. -/
lemma allowSeq_append (l : RateLimiter) (ts1 ts2 : List ℚ) :
    allowSeq l (ts1 ++ ts2) =
      ((allowSeq l ts1).1 ++ (allowSeq (allowSeq l ts1).2 ts2).1,
        (allowSeq (allowSeq l ts1).2 ts2).2) := by
  induction ts1 generalizing l with
  | nil => simp [allowSeq]
  | cons t ts ih => simp [allowSeq, ih]

/-- Advancing a bucket to its own last-update time leaves the (in-range)
token count unchanged: no time has elapsed, so nothing refills. -/
lemma advanceTokens_same (l : RateLimiter) (t : ℚ) (ht : l.lastTime = t)
    (hb : l.tokens ≤ (l.burst : ℚ)) : l.advanceTokens t = l.tokens := by
  unfold RateLimiter.advanceTokens
  rw [ht, sub_self]
  have hmax : ratMax 0 0 = (0 : ℚ) := by unfold ratMax; simp
  rw [hmax, zero_mul, add_zero]
  unfold ratMin
  split
  · next h => exact le_antisymm h hb
  · rfl

/-- Performing k admission checks, all at the bucket's own last-update
time, from a bucket holding at least k (and at most burst) tokens: all are
admitted and exactly k tokens are consumed. -/
lemma allowSeq_const (lim : ℚ) (b : ℕ) (t : ℚ) :
    ∀ (k : ℕ) (tk : ℚ), (k : ℚ) ≤ tk → tk ≤ (b : ℚ) →
      allowSeq ⟨lim, b, tk, t⟩ (List.replicate k t) =
        (List.replicate k true, ⟨lim, b, tk - k, t⟩) := by
  intro k
  induction k with
  | zero => intro tk _ _; simp [allowSeq]
  | succ n ih =>
    intro tk hk hb
    have hone : (1 : ℚ) ≤ tk := by
      have : ((n : ℚ) + 1) ≤ tk := by push_cast at hk; linarith
      have hn : (0 : ℚ) ≤ (n : ℚ) := Nat.cast_nonneg n
      linarith
    have hadv : RateLimiter.advanceTokens ⟨lim, b, tk, t⟩ t = tk :=
      advanceTokens_same ⟨lim, b, tk, t⟩ t rfl hb
    have hallow : RateLimiter.allowAt ⟨lim, b, tk, t⟩ t =
        (true, ⟨lim, b, tk - 1, t⟩) := by
      unfold RateLimiter.allowAt
      rw [hadv, if_pos hone]
    rw [List.replicate_succ]
    show ((RateLimiter.allowAt ⟨lim, b, tk, t⟩ t).1 :: _, _) = _
    rw [hallow]
    have hk2 : (n : ℚ) ≤ tk - 1 := by push_cast at hk; linarith
    have hb2 : tk - 1 ≤ (b : ℚ) := by linarith
    rw [ih (tk - 1) hk2 hb2]
    have : tk - 1 - (n : ℚ) = tk - ((n + 1 : ℕ) : ℚ) := by push_cast; ring
    rw [this, List.replicate_succ]

/-- For a single client key the middleware run is the bucket run: each
step finds (or creates) that key's bucket and stores the updated one
back. -/
lemma rateLimitRun_single (n : ℕ) (ip : String) :
    ∀ (ts : List ℚ) (l : RateLimiter),
      rateLimitRun n [(ip, l)] (ts.map (fun t => (ip, t))) =
        (allowSeq l ts).1.map
          (fun b => if b then MWOutcome.nextCalled
            else MWOutcome.tooManyRequestsRsp) := by
  intro ts
  induction ts with
  | nil => intro l; rfl
  | cons t ts ih =>
    intro l
    have hbucket : bucketFor n [(ip, l)] ip t = l := by
      unfold bucketFor
      simp [List.lookup]
    have hupd : updateEntry [(ip, l)] ip ((l.allowAt t).2) =
        [(ip, (l.allowAt t).2)] := by
      unfold updateEntry
      simp
    show (rateLimitStep n [(ip, l)] ip t).1 ::
        rateLimitRun n (rateLimitStep n [(ip, l)] ip t).2
          (ts.map (fun t => (ip, t))) = _
    unfold rateLimitStep
    rw [hbucket, hupd, ih ((l.allowAt t).2)]
    rfl

/-- Sixty-one requests from one client at time 0, then one more a second
later. -/
def burstSchedule : List (String × ℚ) :=
  List.replicate 61 ("1.2.3.4", (0 : ℚ)) ++ [("1.2.3.4", (1 : ℚ))]

/-- Claim C7: the per-client bucket has capacity n and refills at n/60
tokens per second, admission consumes exactly one token and is denied
exactly when less than one token has accumulated, the state is unchanged
on denial — and with ceiling 60, 60 requests from one client within one
second are all admitted, the 61st is denied, and one second later another
request is admitted. -/
theorem rateLimiter_token_bucket :
    (∀ (n : ℕ) (t : ℚ), (newLimiter n t).burst = n ∧
      (newLimiter n t).limit = (n : ℚ) / 60 ∧
      (newLimiter n t).tokens = (n : ℚ)) ∧
    (∀ (l : RateLimiter) (t : ℚ),
      ((l.allowAt t).1 = true ↔ 1 ≤ l.advanceTokens t) ∧
      ((l.allowAt t).1 = true →
        (l.allowAt t).2.tokens = l.advanceTokens t - 1) ∧
      ((l.allowAt t).1 = false → (l.allowAt t).2 = l)) ∧
    (∀ (l : RateLimiter) (t : ℚ), l.advanceTokens t ≤ (l.burst : ℚ)) ∧
    rateLimitRun 60 [] burstSchedule =
      List.replicate 60 MWOutcome.nextCalled ++
        [MWOutcome.tooManyRequestsRsp, MWOutcome.nextCalled] := by
  have hdiv : Rat.divInt ((60 : ℕ) : ℤ) 60 = 1 := by
    rw [Rat.divInt_eq_div]
    push_cast
    norm_num
  refine ⟨fun n t => ⟨rfl, ?_, rfl⟩, fun l t => ?_,
    fun l t => ratMin_le_left _ _, ?_⟩
  · show Rat.divInt (n : Int) 60 = (n : ℚ) / 60
    rw [Rat.divInt_eq_div]
    push_cast
    ring
  · unfold RateLimiter.allowAt
    by_cases h : 1 ≤ l.advanceTokens t
    · simp [h]
    · simp [h]
  · have hsched : burstSchedule = ("1.2.3.4", (0 : ℚ)) ::
        ((List.replicate 60 (0 : ℚ) ++ [(1 : ℚ)]).map
          (fun t => ("1.2.3.4", t))) := by
      unfold burstSchedule
      rw [List.replicate_succ]
      simp [List.map_append, List.map_replicate]
    have hadv0 : (newLimiter 60 0).advanceTokens 0 = ((60 : ℕ) : ℚ) :=
      advanceTokens_same (newLimiter 60 0) 0 rfl (le_refl _)
    have hallow0 : (newLimiter 60 0).allowAt 0 =
        (true, ⟨Rat.divInt ((60 : ℕ) : ℤ) 60, 60, ((60 : ℕ) : ℚ) - 1, 0⟩) := by
      unfold RateLimiter.allowAt
      rw [hadv0, if_pos (by norm_num : (1 : ℚ) ≤ ((60 : ℕ) : ℚ))]
      rfl
    have hstep1 : rateLimitStep 60 [] "1.2.3.4" 0 =
        (MWOutcome.nextCalled,
          [("1.2.3.4",
            (⟨Rat.divInt ((60 : ℕ) : ℤ) 60, 60, ((60 : ℕ) : ℚ) - 1, 0⟩ :
              RateLimiter))]) := by
      unfold rateLimitStep
      rw [show bucketFor 60 [] "1.2.3.4" 0 = newLimiter 60 0 from rfl,
        hallow0]
      rfl
    rw [hsched]
    show (rateLimitStep 60 [] "1.2.3.4" 0).1 ::
        rateLimitRun 60 (rateLimitStep 60 [] "1.2.3.4" 0).2
          ((List.replicate 60 (0 : ℚ) ++ [(1 : ℚ)]).map
            (fun t => ("1.2.3.4", t))) = _
    rw [hstep1, rateLimitRun_single 60 "1.2.3.4"
      (List.replicate 60 (0 : ℚ) ++ [(1 : ℚ)]), hdiv]
    have hts : (List.replicate 60 (0 : ℚ) ++ [(1 : ℚ)]) =
        List.replicate 59 (0 : ℚ) ++ [(0 : ℚ), (1 : ℚ)] := by
      rw [List.replicate_succ']
      simp
    rw [hts, allowSeq_append]
    have hA := allowSeq_const 1 60 0 59 (((60 : ℕ) : ℚ) - 1)
      (by push_cast; norm_num) (by push_cast; norm_num)
    rw [hA]
    have htk : ((60 : ℕ) : ℚ) - 1 - ((59 : ℕ) : ℚ) = 0 := by
      push_cast
      norm_num
    rw [htk]
    have hdeny : RateLimiter.allowAt ⟨1, 60, 0, 0⟩ 0 =
        (false, ⟨1, 60, 0, 0⟩) := by
      unfold RateLimiter.allowAt
      rw [advanceTokens_same ⟨1, 60, 0, 0⟩ 0 rfl (by norm_num),
        if_neg (by norm_num)]
    have hadv1 : RateLimiter.advanceTokens ⟨1, 60, 0, 0⟩ 1 = 1 := by
      unfold RateLimiter.advanceTokens ratMin ratMax
      norm_num
    have hallow1 : RateLimiter.allowAt ⟨1, 60, 0, 0⟩ 1 =
        (true, ⟨1, 60, 1 - 1, 1⟩) := by
      unfold RateLimiter.allowAt
      rw [hadv1, if_pos (by norm_num : (1 : ℚ) ≤ 1)]
    have hB : (allowSeq ⟨1, 60, 0, 0⟩ [(0 : ℚ), (1 : ℚ)]).1 =
        [false, true] := by
      simp [allowSeq, hdeny, hallow1]
    rw [hB]
    simp [List.map_append, List.map_replicate, List.replicate_succ]

/-- Witness for C7: a full bucket of capacity 60 admits a request at its
creation time, and the admission consumes exactly one token. -/
theorem rateLimiter_token_bucket_witness :
    (RateLimiter.allowAt ⟨1, 60, 60, 0⟩ 0).1 = true ∧
    (RateLimiter.allowAt ⟨1, 60, 60, 0⟩ 0).2.tokens =
      RateLimiter.advanceTokens ⟨1, 60, 60, 0⟩ 0 - 1 :=
  have h : (RateLimiter.allowAt ⟨1, 60, 60, 0⟩ 0).1 = true := by
    norm_num [RateLimiter.allowAt, RateLimiter.advanceTokens, ratMin, ratMax]
  ⟨h, (rateLimiter_token_bucket.2.1 ⟨1, 60, 60, 0⟩ 0).2.1 h⟩

end Common
